import Mathlib

/-!
# Verification of the LLM Code Deployment Agent pipeline (`helpers.py`)

Shallow embedding of the request-processing pipeline from `src/helpers.py`:
`generate_app`, `create_repo`, `upload_files_to_repo`, `enable_pages`,
`notify_evaluation`, and the repository-acquisition branch of
`process_request`.

Conventions of the embedding:
* The local Working Directory is an association list `String × FileContent`;
  a write prepends, a read (`List.lookup`) returns the most recent write,
  which models in-place overwrite of a file.
* The remote repository file set is a map `String → Option FileContent`.
* External I/O (HTTP calls, the generation service) is passed in as explicit
  outcome values (oracles); a Python exception that the source does not catch
  is an `Except.error`.
* `time.sleep` calls are recorded in event traces rather than performed.
-/

set_option autoImplicit false

namespace DeployAgent

/-- File contents: decoded attachment bytes (written with mode "wb") or
text (the generated document, written with mode "w"). -/
inductive FileContent where
  | bin (data : List Nat)
  | txt (s : String)
deriving DecidableEq, Repr

/-- The task-scoped Working Directory (`task-<id>/` on disk). -/
abbrev WorkDir := List (String × FileContent)

/-- Writing a file into the Working Directory (a later write shadows an
earlier one for `readFile`). -/
def writeFile (d : WorkDir) (name : String) (c : FileContent) : WorkDir :=
  (name, c) :: d

/-- Reading a file from the Working Directory; `none` is `FileNotFoundError`. -/
def readFile (d : WorkDir) (name : String) : Option FileContent :=
  List.lookup name d

/-! ## Base64 decoding (`base64.b64decode`) -/

/-- Value of a character in the standard base64 alphabet. -/
def b64val (c : Char) : Option Nat :=
  if 'A' ≤ c ∧ c ≤ 'Z' then some (c.toNat - 'A'.toNat)
  else if 'a' ≤ c ∧ c ≤ 'z' then some (c.toNat - 'a'.toNat + 26)
  else if '0' ≤ c ∧ c ≤ '9' then some (c.toNat - '0'.toNat + 52)
  else if c = '+' then some 62
  else if c = '/' then some 63
  else none

/-- The three output bytes of a completed base64 quad `a b c d`. -/
def emitQuadBytes (a b c d : Nat) : List Nat :=
  [a * 4 + b / 16, (b % 16) * 16 + c / 4, (c % 4) * 64 + d]

/-- The bytes already produced from the data characters of a quad that a
pad sequence completes early: 2 data characters have yielded 1 byte,
3 have yielded 2 (other lengths never reach the pad exit). -/
def emitPartialBytes : List Nat → List Nat
  | [a, b] => [a * 4 + b / 16]
  | [a, b, c] => [a * 4 + b / 16, (b % 16) * 16 + c / 4]
  | _ => []

/-- `binascii.a2b_base64` in non-strict mode, one character at a time:
`pads` counts the pad characters seen since the last data character,
`group` holds the data-character values of the current incomplete quad
(`quad_pos` is its length), `acc` the bytes decoded so far. A `=` at
`quad_pos ≥ 2` that brings `quad_pos + pads` to 4 ends decoding
successfully with the current group's partial bytes; a `=` elsewhere is
ignored (it bumps `pads` only when `quad_pos ≥ 2`). Characters outside the
alphabet are skipped; a data character resets `pads` and extends or
completes the quad. Input ending inside an incomplete quad raises
`binascii.Error` (`none`). -/
def a2bBase64 : List Char → Nat → List Nat → List Nat → Option (List Nat)
  | [], _, group, acc => if group.isEmpty then some acc else none
  | ch :: rest, pads, group, acc =>
      if ch = '=' then
        if 2 ≤ group.length ∧ 4 ≤ group.length + pads + 1 then
          some (acc ++ emitPartialBytes group)
        else
          a2bBase64 rest (if 2 ≤ group.length then pads + 1 else pads) group acc
      else
        match b64val ch with
        | none => a2bBase64 rest pads group acc
        | some v =>
            match group with
            | [a, b, c] => a2bBase64 rest 0 [] (acc ++ emitQuadBytes a b c v)
            | _ => a2bBase64 rest 0 (group ++ [v]) acc

/-- `base64.b64decode(s)` with default (non-strict) validation: a string
with non-ASCII characters raises `ValueError` in `_bytes_from_decode_data`,
otherwise the bytes go straight to `binascii.a2b_base64`. `none` is the
raised exception (`ValueError` or `binascii.Error`). -/
def b64decode (s : String) : Option (List Nat) :=
  if s.data.all (fun c => c.toNat < 128) then a2bBase64 s.data 0 [] []
  else none

/-! ## Attachment handling in `generate_app` -/

/-- One inbound attachment dict: `.get('name')` / `.get('url')` may be
absent. -/
structure Attachment where
  name : Option String
  url : Option String
deriving DecidableEq, Repr

/-- Python truthiness of an optional string (`if file_name and data_uri:`):
`None` and the empty string are falsy. -/
def truthyStr : Option String → Option String
  | some s => if s = "" then none else some s
  | none => none

/-- `data_uri.split(",", 1)` followed by unpacking into two names: splits at
the first comma; `none` models the `ValueError` raised when the string
contains no comma (one-element unpack target mismatch). -/
def splitCommaChars : List Char → Option (List Char × List Char)
  | [] => none
  | c :: cs =>
      if c = ',' then some ([], cs)
      else
        match splitCommaChars cs with
        | some (h, t) => some (c :: h, t)
        | none => none

/-- String-level wrapper of `splitCommaChars`. -/
def splitFirstComma (s : String) : Option (String × String) :=
  match splitCommaChars s.data with
  | some (h, t) => some (⟨h⟩, ⟨t⟩)
  | none => none

/-- Processing of one attachment in the `for attachment in attachments` loop
of `generate_app` (lines 59–66): skip when name or url is missing/empty,
otherwise split the data URI at its first comma, base64-decode the payload
and write it under the declared name. `Except.error` is an uncaught
exception. -/
def processAttachment (d : WorkDir) (a : Attachment) : Except Unit WorkDir :=
  match truthyStr a.name, truthyStr a.url with
  | some n, some u =>
      match splitFirstComma u with
      | none => Except.error ()
      | some (_, encoded) =>
          match b64decode encoded with
          | none => Except.error ()
          | some data => Except.ok (writeFile d n (FileContent.bin data))
  | _, _ => Except.ok d

/-- The whole attachment loop. -/
def processAttachments (d : WorkDir) : List Attachment → Except Unit WorkDir
  | [] => Except.ok d
  | a :: rest => do
      let d2 ← processAttachment d a
      processAttachments d2 rest

/-! ## Prompt construction and response handling in `generate_app` -/

/-- The fixed part of the generation instruction (the f-string `prompt`,
lines 68–80, with the brief interpolated). -/
def basePrompt (brief : String) : String :=
  "\nYou are an expert web developer. Your task is to build a single-page web application based on the following brief:\n\n**Brief:** "
    ++ brief ++
    "\n\n**Instructions:**\n1.  Create a single `index.html` file.\n2.  You can use HTML, CSS, and JavaScript.\n3.  If CSS or JavaScript is needed, embed it directly into the `index.html` file.\n4.  The application should be self-contained in this single file.\n5.  Do not use any external libraries unless specified in the brief.\n6.  The output should be a JSON object with a single key \"html\" and the value as the complete HTML code.\n"

/-- The revision context appended when `round_num > 1` (line 84). -/
def revisionBlock (existing : String) : String :=
  "\n**Existing HTML (for revision):**\n```html\n" ++ existing ++ "\n```"

/-- Builds the generation instruction (lines 68–84): for `round_num > 1` the
previous `index.html` is read back from the Working Directory and appended
as revision context (a missing file raises `FileNotFoundError`, modelled as
`Except.error`; the file is text because `generate_app` wrote it in text
mode). -/
def buildPrompt (brief : String) (d : WorkDir) (round_num : Int) : Except Unit String :=
  if round_num > 1 then
    match readFile d "index.html" with
    | some (FileContent.txt s) => Except.ok (basePrompt brief ++ revisionBlock s)
    | _ => Except.error ()
  else Except.ok (basePrompt brief)

/-- The generation-service response content, as seen by
`json.loads(response.choices[0].message.content)`:
`invalid` — `json.loads` raises `JSONDecodeError`;
`objFields` — a JSON object, modelled as its string-valued fields;
`nonDict` — valid JSON that is not an object, on which `.get` raises an
uncaught `AttributeError`. -/
inductive GenContent where
  | invalid
  | objFields (fields : List (String × String))
  | nonDict
deriving DecidableEq, Repr

/-- The hard-coded fallback document (line 101). -/
def fallbackHtml : String := "<html><body>Error generating content.</body></html>"

/-- Lines 97–101: `json.loads` failure is caught and degraded to the
fallback document; on a parsed object, `output.get("html", "")` yields the
field's value or the empty string; a parsed non-object raises. -/
def extractHtml : GenContent → Except Unit String
  | GenContent.invalid => Except.ok fallbackHtml
  | GenContent.objFields fs => Except.ok ((List.lookup "html" fs).getD "")
  | GenContent.nonDict => Except.error ()

/-- `generate_app` (lines 51–105): writes decoded attachments into the
Working Directory, builds the instruction, invokes the generation service
(its response content is the oracle `content`), extracts the document and
writes it to `index.html`. Returns the updated directory together with the
instruction that was sent. -/
def generate_app (d : WorkDir) (brief : String) (attachments : List Attachment)
    (round_num : Int) (content : GenContent) : Except Unit (WorkDir × String) := do
  let d2 ← processAttachments d attachments
  let prompt ← buildPrompt brief d2 round_num
  let html ← extractHtml content
  Except.ok (writeFile d2 "index.html" (FileContent.txt html), prompt)

/-! ## Repository creation (`create_repo`) and acquisition (`process_request`) -/

/-- Outcome of the remote `user.create_repo` call: success, or a raised
`GithubException` carrying an HTTP status (422 = name already exists). -/
inductive CreateOutcome where
  | ok
  | errStatus (code : Nat)
deriving DecidableEq, Repr

/-- Remote repository operations the acquisition step performs. -/
inductive RepoAction where
  | attemptCreate
  | fetchByName
deriving DecidableEq, Repr

/-- `create_repo` (lines 107–122): tries to create `task-<id>`; a 422
("already exists") error falls back to `user.get_repo`, any other error is
re-raised. Returns the repository name (the handle) or the re-raised status,
together with the remote operations performed. `get_repo` is modelled as
returning the handle; its own failure modes are orthogonal to the claims. -/
def create_repo (task_id : String) (outcome : CreateOutcome) :
    Except Nat String × List RepoAction :=
  match outcome with
  | CreateOutcome.ok =>
      (Except.ok ("task-" ++ task_id), [RepoAction.attemptCreate])
  | CreateOutcome.errStatus c =>
      if c = 422 then
        (Except.ok ("task-" ++ task_id),
         [RepoAction.attemptCreate, RepoAction.fetchByName])
      else (Except.error c, [RepoAction.attemptCreate])

/-- The repository-acquisition branch of `process_request` (lines 28–31):
round 1 goes through `create_repo`, any other round fetches by name. -/
def acquire_repo (task_id : String) (round_num : Int) (outcome : CreateOutcome) :
    Except Nat String × List RepoAction :=
  if round_num = 1 then create_repo task_id outcome
  else (Except.ok ("task-" ++ task_id), [RepoAction.fetchByName])

/-! ## Publishing (`upload_files_to_repo`) -/

/-- The remote repository's file set at HEAD of the default branch. -/
abbrev Remote := String → Option FileContent

/-- State of the remote after a `create_file`/`update_file` of `name`. -/
def rset (r : Remote) (name : String) (c : FileContent) : Remote :=
  fun m => if m = name then some c else r m

/-- `repo.create_file`: fails (HTTP 422) when the path already exists. -/
def remoteCreateFile (r : Remote) (name : String) (c : FileContent) :
    Except Unit Remote :=
  match r name with
  | some _ => Except.error ()
  | none => Except.ok (rset r name c)

/-- Which path the per-file loop took for a file. -/
inductive UpAction where
  | update (name : String)
  | create (name : String)
deriving DecidableEq, Repr

/-- The per-file loop of `upload_files_to_repo` (lines 153–163): for each
local file, `repo.get_contents` decides between `update_file` (with the
existing blob's sha, taken from the file just fetched) and `create_file`.
In this sequential model both succeed, so the loop is total; the action log
records which path was taken. -/
def uploadLoop (r : Remote) (log : List UpAction) :
    List (String × FileContent) → Remote × List UpAction
  | [] => (r, log)
  | (n, c) :: rest =>
      match r n with
      | some _ => uploadLoop (rset r n c) (log ++ [UpAction.update n]) rest
      | none => uploadLoop (rset r n c) (log ++ [UpAction.create n]) rest

/-- The generated `README.md` bootstrap content (lines 135–149). -/
def readmeContent (task_id : String) : String :=
  "\n# " ++ task_id ++
    "\n\n## Summary\nThis project is an auto-generated web application based on a provided brief.\n\n## Setup\nTo run this application, simply open the `index.html` file in your web browser.\n\n## Code Explanation\nThe `index.html` file contains the entire application, including the HTML structure, CSS styling, and JavaScript logic.\n\n## License\nThis project is licensed under the MIT License.\n"

/-- `upload_files_to_repo` (lines 124–165): on round 1 it unconditionally
creates the `LICENSE` and `README.md` bootstrap files (uncaught failure if
either already exists), then runs the per-file loop over the Working
Directory listing `localFiles`. Returns the final remote file set and the
loop's action log. -/
def upload_files_to_repo (task_id : String) (r : Remote) (round_num : Int)
    (localFiles : List (String × FileContent)) :
    Except Unit (Remote × List UpAction) :=
  if round_num = 1 then
    match remoteCreateFile r "LICENSE" (FileContent.txt "MIT License") with
    | Except.error e => Except.error e
    | Except.ok r1 =>
        match remoteCreateFile r1 "README.md" (FileContent.txt (readmeContent task_id)) with
        | Except.error e => Except.error e
        | Except.ok r2 => Except.ok (uploadLoop r2 [] localFiles)
  else Except.ok (uploadLoop r [] localFiles)

/-! ## Hosting (`enable_pages`) -/

/-- Result of one `requests.post`/`requests.get` call to the Pages API:
either a transport-level exception, or a response with a status code and
(the only body field the code reads) an optional `html_url`. -/
inductive HttpResult where
  | exn
  | resp (status : Nat) (htmlUrl : Option String)
deriving DecidableEq, Repr

/-- `enable_pages` (lines 167–194): POST the enable request; on 201, sleep
10 and return the response's `html_url`; otherwise fall back to a GET of the
Pages configuration, returning its `html_url` on 200 and `None` on any other
status. There is no `try` in the source, so a transport exception from
either call propagates (`Except.error`). Returns the hosting URL and the
list of sleeps performed. -/
def enable_pages (postR getR : HttpResult) :
    Except Unit (Option String × List Nat) :=
  match postR with
  | HttpResult.exn => Except.error ()
  | HttpResult.resp st u =>
      if st = 201 then Except.ok (u, [10])
      else
        match getR with
        | HttpResult.exn => Except.error ()
        | HttpResult.resp st2 u2 =>
            if st2 = 200 then Except.ok (u2, []) else Except.ok (none, [])

/-! ## Notification (`notify_evaluation`) -/

/-- A JSON value in the notification payload dict. -/
inductive Val where
  | vstr (s : String)
  | vnum (n : Int)
  | vnull
deriving DecidableEq, Repr

/-- Python truthiness of a payload value (`if not url:`). -/
def Val.truthy : Val → Bool
  | Val.vstr s => s ≠ ""
  | Val.vnum n => n ≠ 0
  | Val.vnull => false

/-- The notification payload dict (keys are unique). -/
abbrev Payload := List (String × Val)

/-- Outcome of one `requests.post(url, json=payload)` attempt: a raised
`requests.exceptions.RequestException` (the only exception the loop's
`except` clause catches) or a response with a status code. -/
inductive PostOutcome where
  | exn
  | resp (status : Nat)
deriving DecidableEq, Repr

/-- Line 210: the loop stops only on a response with status exactly 200
(`if response.status_code == 200:`); a raised exception is never a
success. -/
def isSuccess : PostOutcome → Bool
  | PostOutcome.exn => false
  | PostOutcome.resp st => st = 200

/-- Observable events of `notify_evaluation`: a POST of a request body, or a
`time.sleep` of a duration. -/
inductive NEvent where
  | post (body : Payload)
  | sleep (d : Nat)
deriving DecidableEq, Repr

/-- The retry loop of `notify_evaluation` (lines 206–217): `fuel` is the
remaining iterations of `for i in range(4)`, `i` the attempt index (outcome
`outcomes i`), `delay` the current backoff. A 200 response returns
immediately; any exception or other status falls through to
`time.sleep(delay); delay *= 2`. -/
def notifyLoop (outcomes : Nat → PostOutcome) (body : Payload) :
    Nat → Nat → Nat → List NEvent
  | 0, _, _ => []
  | fuel + 1, i, delay =>
      NEvent.post body ::
        (if isSuccess (outcomes i) then []
         else NEvent.sleep delay :: notifyLoop outcomes body fuel (i + 1) (delay * 2))

/-- `notify_evaluation` (lines 196–217): returns immediately when the
payload's `evaluation_url` is absent or falsy; otherwise deletes that key
from the payload dict in place and retries the POST of the remaining payload
up to 4 times with doubling backoff starting at 1. Returns the event trace
and the payload dict as the caller sees it after the call (modelling the
in-place `del`). The function body raises nothing: the only raising call is
wrapped in the `except RequestException` clause. -/
def notify_evaluation (payload : Payload) (outcomes : Nat → PostOutcome) :
    List NEvent × Payload :=
  match List.lookup "evaluation_url" payload with
  | none => ([], payload)
  | some v =>
      if v.truthy then
        let p2 := payload.filter (fun q => q.1 ≠ "evaluation_url")
        (notifyLoop outcomes p2 4 0 1, p2)
      else ([], payload)

/-! ## Observation helpers for the theorems -/

/-- A remote repository with no files (fresh task). -/
def emptyRemote : Remote := fun _ => none

/-- Whether a publish run completed without an uncaught exception. -/
def publishOk : Except Unit (Remote × List UpAction) → Bool
  | Except.ok _ => true
  | Except.error _ => false

/-- Runs `upload_files_to_repo` and, when it succeeds, immediately re-runs
it on the resulting remote with the same local files (the "re-running
publish" experiment of the idempotence property). -/
def republish (task_id : String) (r : Remote) (round_num : Int)
    (localFiles : List (String × FileContent)) :
    Except Unit (Remote × List UpAction) :=
  match upload_files_to_repo task_id r round_num localFiles with
  | Except.ok (r1, _) => upload_files_to_repo task_id r1 round_num localFiles
  | Except.error e => Except.error e

/-- Whether a notifier event is a POST attempt. -/
def NEvent.isPost : NEvent → Bool
  | NEvent.post _ => true
  | NEvent.sleep _ => false

/-- The last value written for key `m` by a file listing, if any: the
specification of what `uploadLoop` leaves at each remote path. -/
def olast : List (String × FileContent) → String → Option FileContent
  | [], _ => none
  | (n, c) :: rest, m =>
      match olast rest m with
      | some c2 => some c2
      | none => if m = n then some c else none

/-! ## Supporting lemmas -/

theorem notifyLoop_post_body (outcomes : Nat → PostOutcome) (body : Payload) :
    ∀ (fuel i delay : Nat) (b : Payload),
      NEvent.post b ∈ notifyLoop outcomes body fuel i delay → b = body := by
  intro fuel
  induction fuel with
  | zero => intro i delay b h; simp [notifyLoop] at h
  | succ n ih =>
      intro i delay b h
      by_cases hs : isSuccess (outcomes i) = true
      · simp [notifyLoop, hs] at h
        exact h
      · simp [notifyLoop, hs] at h
        rcases h with h | h
        · exact h
        · exact ih (i + 1) (delay * 2) b h

theorem notifyLoop_countP_le (outcomes : Nat → PostOutcome) (body : Payload) :
    ∀ (fuel i delay : Nat),
      (notifyLoop outcomes body fuel i delay).countP NEvent.isPost ≤ fuel := by
  intro fuel
  induction fuel with
  | zero => intro i delay; simp [notifyLoop]
  | succ n ih =>
      intro i delay
      by_cases hs : isSuccess (outcomes i) = true
      · simp [notifyLoop, hs, List.countP_cons, NEvent.isPost]
      · simp [notifyLoop, hs, List.countP_cons, NEvent.isPost]
        exact ih (i + 1) (delay * 2)

theorem lookup_filterKey_self (key : String) (l : Payload) :
    List.lookup key (l.filter fun q => q.1 ≠ key) = none := by
  induction l with
  | nil => rfl
  | cons p rest ih =>
      rw [List.filter_cons]
      by_cases h : p.1 = key
      · rw [if_neg (by simp [h])]
        exact ih
      · rw [if_pos (by simp [h])]
        simp only [List.lookup]
        rw [beq_eq_false_iff_ne.mpr (Ne.symm h)]
        exact ih

theorem lookup_filterKey_ne (key k : String) (hk : k ≠ key) (l : Payload) :
    List.lookup k (l.filter fun q => q.1 ≠ key) = List.lookup k l := by
  induction l with
  | nil => rfl
  | cons p rest ih =>
      rw [List.filter_cons]
      by_cases h : p.1 = key
      · rw [if_neg (by simp [h])]
        simp only [List.lookup]
        rw [beq_eq_false_iff_ne.mpr (fun he => hk (he.trans h))]
        exact ih
      · rw [if_pos (by simp [h])]
        simp only [List.lookup]
        cases hb : k == p.1
        · exact ih
        · rfl

theorem uploadLoop_fst (L : List (String × FileContent)) :
    ∀ (r : Remote) (log : List UpAction) (m : String),
      (uploadLoop r log L).1 m =
        match olast L m with
        | some c => some c
        | none => r m := by
  induction L with
  | nil => intro r log m; rfl
  | cons p rest ih =>
      intro r log m
      obtain ⟨n, c⟩ := p
      have hstep : (uploadLoop r log ((n, c) :: rest)).1 m =
          (uploadLoop (rset r n c) (log ++ [match r n with
            | some _ => UpAction.update n
            | none => UpAction.create n]) rest).1 m := by
        cases hr : r n <;> simp [uploadLoop, hr]
      rw [hstep, ih]
      cases holast : olast rest m
      · by_cases hmn : m = n
        · subst hmn
          simp [olast, holast, rset]
        · simp [olast, holast, rset, hmn]
      · simp [olast, holast]

theorem olast_isSome_of_mem (L : List (String × FileContent)) :
    ∀ p ∈ L, (olast L p.1).isSome = true := by
  induction L with
  | nil => intro p hp; cases hp
  | cons q rest ih =>
      intro p hp
      obtain ⟨n, c⟩ := q
      rcases List.mem_cons.mp hp with h | h
      · rw [h]
        cases holast : olast rest n <;> simp [olast, holast]
      · have hrest := ih p h
        cases holast : olast rest p.1 <;> simp [olast, holast]
        rw [holast] at hrest
        simp at hrest

theorem uploadLoop_log_updates (L : List (String × FileContent)) :
    ∀ (r : Remote) (log : List UpAction),
      (∀ p ∈ L, (r p.1).isSome = true) →
      (∀ a ∈ log, ∃ m, a = UpAction.update m) →
      ∀ a ∈ (uploadLoop r log L).2, ∃ m, a = UpAction.update m := by
  induction L with
  | nil => intro r log _ hlog a ha; exact hlog a ha
  | cons p rest ih =>
      intro r log hpres hlog a ha
      obtain ⟨n, c⟩ := p
      have hn : (r n).isSome = true := hpres (n, c) (List.mem_cons_self _ _)
      cases hr : r n
      · rw [hr] at hn; simp at hn
      · rw [show uploadLoop r log ((n, c) :: rest) =
              uploadLoop (rset r n c) (log ++ [UpAction.update n]) rest by
            simp [uploadLoop, hr]] at ha
        refine ih (rset r n c) (log ++ [UpAction.update n]) ?_ ?_ a ha
        · intro q hq
          by_cases hqn : q.1 = n
          · simp [rset, hqn]
          · simp only [rset, if_neg hqn]
            exact hpres q (List.mem_cons_of_mem _ hq)
        · intro b hb
          rcases List.mem_append.mp hb with hb | hb
          · exact hlog b hb
          · simp at hb
            exact ⟨n, hb⟩

/-! ## Claim theorems -/

/-- C1 (amended): in `generate_app`, a generation response whose content is
not valid JSON is degraded to the fallback error document, and a valid JSON
object lacking the `html` field yields the empty string as the document
(`output.get("html", "")`), not the fallback; in both cases the document is
written into the Working Directory and the run completes without an
exception, so the pipeline proceeds to publish it. -/
theorem generation_content_degradation (d : WorkDir) (brief : String) :
    (generate_app d brief [] 1 GenContent.invalid =
       Except.ok (writeFile d "index.html" (FileContent.txt fallbackHtml), basePrompt brief)) ∧
    (∀ fs, List.lookup "html" fs = none →
       generate_app d brief [] 1 (GenContent.objFields fs) =
         Except.ok (writeFile d "index.html" (FileContent.txt ""), basePrompt brief)) := by
  constructor
  · rfl
  · intro fs h
    have he : extractHtml (GenContent.objFields fs) = Except.ok "" := by
      simp [extractHtml, h]
    rw [show generate_app d brief [] 1 (GenContent.objFields fs) =
          (do
            let d2 ← processAttachments d []
            let prompt ← buildPrompt brief d2 1
            let html ← extractHtml (GenContent.objFields fs)
            Except.ok (writeFile d2 "index.html" (FileContent.txt html), prompt))
        from rfl, he]
    rfl

/-- C1 (counterexample): for the valid-JSON response `{}` — which lacks the
`html` field — `generate_app` writes the empty document, which is not the
fallback error page, refuting the claim that every response lacking the
field produces the fallback document. -/
theorem generation_missing_field_not_fallback :
    generate_app [] "b" [] 1 (GenContent.objFields []) =
      Except.ok ([("index.html", FileContent.txt "")], basePrompt "b") ∧
    FileContent.txt "" ≠ FileContent.txt fallbackHtml := ⟨rfl, by decide⟩

/-- C1 (witness): evaluates the amended theorem on the concrete object
`{"title": "x"}`, which parses but has no `html` field. -/
theorem generation_content_degradation_witness :
    generate_app [] "b" [] 1 (GenContent.objFields [("title", "x")]) =
      Except.ok (writeFile [] "index.html" (FileContent.txt ""), basePrompt "b") :=
  (generation_content_degradation [] "b").2 [("title", "x")] (by decide)

/-- C2 (amended): for every round other than 1, re-running
`upload_files_to_repo` with identical local files does not fail, leaves the
remote file set unchanged (idempotence, no duplicates in the map model),
and every file operation of the second run takes the update path. On round
1 the unconditional bootstrap `create_file` calls break this; see the
counterexample. -/
theorem publish_idempotent_after_round1 (task_id : String) (r : Remote)
    (round_num : Int) (L : List (String × FileContent)) (h : round_num ≠ 1) :
    upload_files_to_repo task_id r round_num L = Except.ok (uploadLoop r [] L) ∧
    (uploadLoop (uploadLoop r [] L).1 [] L).1 = (uploadLoop r [] L).1 ∧
    upload_files_to_repo task_id (uploadLoop r [] L).1 round_num L =
      Except.ok (uploadLoop (uploadLoop r [] L).1 [] L) ∧
    ∀ a ∈ (uploadLoop (uploadLoop r [] L).1 [] L).2, ∃ m, a = UpAction.update m := by
  refine ⟨by simp [upload_files_to_repo, h], ?_, by simp [upload_files_to_repo, h], ?_⟩
  · funext m
    rw [uploadLoop_fst, uploadLoop_fst]
    cases holast : olast L m
    · simp
    · simp
  · refine uploadLoop_log_updates L _ [] ?_ (by intro b hb; cases hb)
    intro p hp
    rw [uploadLoop_fst]
    have hsome := olast_isSome_of_mem L p hp
    cases holast : olast L p.1
    · rw [holast] at hsome; simp at hsome
    · simp

/-- C2 (counterexample): on round 1 the first publish into an empty remote
succeeds, but re-running it with the identical Working Directory raises at
the unconditional `create_file("LICENSE", ...)`, refuting the claim for
every round number. -/
theorem publish_rerun_round1_fails :
    publishOk (upload_files_to_repo "t" emptyRemote 1
      [("index.html", FileContent.txt "x")]) = true ∧
    republish "t" emptyRemote 1 [("index.html", FileContent.txt "x")] =
      Except.error () := ⟨rfl, rfl⟩

/-- C2 (witness): evaluates the amended theorem at round 2 on a fresh
remote with one local file. -/
theorem publish_idempotent_after_round1_witness :
    upload_files_to_repo "t" emptyRemote 2 [("index.html", FileContent.txt "x")] =
      Except.ok (uploadLoop emptyRemote [] [("index.html", FileContent.txt "x")]) ∧
    (uploadLoop (uploadLoop emptyRemote [] [("index.html", FileContent.txt "x")]).1 []
        [("index.html", FileContent.txt "x")]).1 =
      (uploadLoop emptyRemote [] [("index.html", FileContent.txt "x")]).1 :=
  ⟨(publish_idempotent_after_round1 "t" emptyRemote 2
      [("index.html", FileContent.txt "x")] (by decide)).1,
   (publish_idempotent_after_round1 "t" emptyRemote 2
      [("index.html", FileContent.txt "x")] (by decide)).2.1⟩

/-- C3 (amended): when both Pages requests complete with non-success
statuses (enable POST not 201, fallback status GET not 200), `enable_pages`
returns no hosting URL and does not raise; a transport-level exception from
either request, however, propagates (see the counterexample). -/
theorem hosting_status_failures_degrade (ps gs : Nat) (pu gu : Option String)
    (hp : ps ≠ 201) (hg : gs ≠ 200) :
    enable_pages (HttpResult.resp ps pu) (HttpResult.resp gs gu) =
      Except.ok (none, []) := by
  simp [enable_pages, hp, hg]

/-- C3 (counterexample): with the enable POST failing with status 500 and
the fallback status GET failing with a transport exception, `enable_pages`
raises (there is no `try` around either call), so a hosting failure can
abort the pipeline run, refuting the claim that it never raises. -/
theorem hosting_transport_error_raises :
    enable_pages (HttpResult.resp 500 none) HttpResult.exn = Except.error () := rfl

/-- C3 (witness): evaluates the amended theorem on concrete failure
statuses 409 and 404. -/
theorem hosting_status_failures_degrade_witness :
    enable_pages (HttpResult.resp 409 none) (HttpResult.resp 404 none) =
      Except.ok (none, []) :=
  hosting_status_failures_degrade 409 404 none none (by decide) (by decide)

/-- C4: with a callback URL present, `notify_evaluation` makes at most 4
POST attempts for every outcome sequence; a success response (status 200)
on the first attempt makes the trace exactly one POST; and when all 4
attempts fail the full trace is 4 POSTs with inter-attempt delays 1, 2, 4
(and a final sleep of 8 after the last attempt), after which the function
returns normally — the model is a total function because the only raising
call sits inside the `except RequestException` clause. -/
theorem notify_retry_policy (payload : Payload) (v : Val) (outcomes : Nat → PostOutcome)
    (hv : List.lookup "evaluation_url" payload = some v) (ht : v.truthy = true) :
    ((notify_evaluation payload outcomes).1.countP NEvent.isPost ≤ 4) ∧
    (isSuccess (outcomes 0) = true →
       (notify_evaluation payload outcomes).1 =
         [NEvent.post (payload.filter fun q => q.1 ≠ "evaluation_url")]) ∧
    ((∀ i, i < 4 → isSuccess (outcomes i) = false) →
       (notify_evaluation payload outcomes).1 =
         [NEvent.post (payload.filter fun q => q.1 ≠ "evaluation_url"), NEvent.sleep 1,
          NEvent.post (payload.filter fun q => q.1 ≠ "evaluation_url"), NEvent.sleep 2,
          NEvent.post (payload.filter fun q => q.1 ≠ "evaluation_url"), NEvent.sleep 4,
          NEvent.post (payload.filter fun q => q.1 ≠ "evaluation_url"), NEvent.sleep 8]) := by
  refine ⟨?_, ?_, ?_⟩
  · simp only [notify_evaluation, hv, ht, if_pos]
    exact notifyLoop_countP_le outcomes _ 4 0 1
  · intro hs
    simp only [notify_evaluation, hv, ht, if_pos]
    simp [notifyLoop, hs]
  · intro hf
    simp only [notify_evaluation, hv, ht, if_pos]
    simp [notifyLoop, hf 0 (by norm_num), hf 1 (by norm_num), hf 2 (by norm_num),
      hf 3 (by norm_num)]

/-- C4 (witness): evaluates the retry-policy theorem on a concrete payload,
once with every attempt failing by transport exception and once with a
first-attempt 200. -/
theorem notify_retry_policy_witness :
    (notify_evaluation [("evaluation_url", Val.vstr "u"), ("round", Val.vnum 1)]
        (fun _ => PostOutcome.exn)).1 =
      [NEvent.post ([("evaluation_url", Val.vstr "u"), ("round", Val.vnum 1)].filter
          fun q => q.1 ≠ "evaluation_url"), NEvent.sleep 1,
       NEvent.post ([("evaluation_url", Val.vstr "u"), ("round", Val.vnum 1)].filter
          fun q => q.1 ≠ "evaluation_url"), NEvent.sleep 2,
       NEvent.post ([("evaluation_url", Val.vstr "u"), ("round", Val.vnum 1)].filter
          fun q => q.1 ≠ "evaluation_url"), NEvent.sleep 4,
       NEvent.post ([("evaluation_url", Val.vstr "u"), ("round", Val.vnum 1)].filter
          fun q => q.1 ≠ "evaluation_url"), NEvent.sleep 8] ∧
    (notify_evaluation [("evaluation_url", Val.vstr "u"), ("round", Val.vnum 1)]
        (fun _ => PostOutcome.resp 200)).1 =
      [NEvent.post ([("evaluation_url", Val.vstr "u"), ("round", Val.vnum 1)].filter
          fun q => q.1 ≠ "evaluation_url")] :=
  ⟨(notify_retry_policy _ (Val.vstr "u") (fun _ => PostOutcome.exn) (by decide)
      (by decide)).2.2 (fun i _ => rfl),
   (notify_retry_policy _ (Val.vstr "u") (fun _ => PostOutcome.resp 200) (by decide)
      (by decide)).2.1 (by decide)⟩

/-- C5: on round 1 the pipeline attempts repository creation and, when
creation fails with status 422 (name already exists), falls back to
fetching the existing repository; on every round greater than 1 it fetches
by name and never attempts creation. -/
theorem repo_acquisition_policy (task_id : String) (round_num : Int)
    (outcome : CreateOutcome) :
    (round_num = 1 →
       RepoAction.attemptCreate ∈ (acquire_repo task_id round_num outcome).2 ∧
       (outcome = CreateOutcome.errStatus 422 →
          acquire_repo task_id round_num outcome =
            (Except.ok ("task-" ++ task_id),
             [RepoAction.attemptCreate, RepoAction.fetchByName]))) ∧
    (1 < round_num →
       acquire_repo task_id round_num outcome =
         (Except.ok ("task-" ++ task_id), [RepoAction.fetchByName]) ∧
       RepoAction.attemptCreate ∉ (acquire_repo task_id round_num outcome).2) := by
  constructor
  · intro h1
    subst h1
    constructor
    · cases outcome with
      | ok => simp [acquire_repo, create_repo]
      | errStatus c =>
          by_cases hc : c = 422 <;> simp [acquire_repo, create_repo, hc]
    · intro he
      subst he
      simp [acquire_repo, create_repo]
  · intro h2
    have hne : round_num ≠ 1 := by omega
    constructor
    · simp [acquire_repo, hne]
    · simp [acquire_repo, hne]

/-- C5 (witness): evaluates the acquisition policy on round 1 with a 422
creation conflict and on round 2. -/
theorem repo_acquisition_policy_witness :
    acquire_repo "t" 1 (CreateOutcome.errStatus 422) =
      (Except.ok ("task-" ++ "t"), [RepoAction.attemptCreate, RepoAction.fetchByName]) ∧
    acquire_repo "t" 2 CreateOutcome.ok =
      (Except.ok ("task-" ++ "t"), [RepoAction.fetchByName]) :=
  ⟨((repo_acquisition_policy "t" 1 (CreateOutcome.errStatus 422)).1 rfl).2 rfl,
   ((repo_acquisition_policy "t" 2 CreateOutcome.ok).2 (by decide)).1⟩

/-- C6: `notify_evaluation` on a payload without a callback URL performs no
POST and returns immediately with the payload untouched; with a callback
URL present, every POSTed request body is exactly the payload minus the
`evaluation_url` field. -/
theorem notify_body_excludes_callback (payload : Payload) (outcomes : Nat → PostOutcome) :
    (List.lookup "evaluation_url" payload = none →
       notify_evaluation payload outcomes = ([], payload)) ∧
    (∀ v, List.lookup "evaluation_url" payload = some v → v.truthy = true →
       ∀ b, NEvent.post b ∈ (notify_evaluation payload outcomes).1 →
         b = payload.filter fun q => q.1 ≠ "evaluation_url") := by
  constructor
  · intro h
    simp [notify_evaluation, h]
  · intro v hv ht b hb
    simp only [notify_evaluation, hv, ht, if_pos] at hb
    exact notifyLoop_post_body outcomes _ 4 0 1 b hb

/-- C6 (witness): evaluates both parts on concrete payloads: one without a
callback URL (no POSTs, unchanged payload) and one whose first POSTed body
is checked against the payload minus `evaluation_url`. -/
theorem notify_body_excludes_callback_witness :
    notify_evaluation [("email", Val.vstr "e")] (fun _ => PostOutcome.exn) =
      ([], [("email", Val.vstr "e")]) ∧
    ([("email", Val.vstr "e")] : Payload) =
      ([("evaluation_url", Val.vstr "u"), ("email", Val.vstr "e")] : Payload).filter
        (fun q => q.1 ≠ "evaluation_url") :=
  ⟨(notify_body_excludes_callback [("email", Val.vstr "e")]
      (fun _ => PostOutcome.exn)).1 (by decide),
   (notify_body_excludes_callback
      [("evaluation_url", Val.vstr "u"), ("email", Val.vstr "e")]
      (fun _ => PostOutcome.exn)).2 (Val.vstr "u") (by decide) (by decide)
      [("email", Val.vstr "e")] (by decide)⟩

/-- C9: `notify_evaluation` deletes the `evaluation_url` entry from the
caller's payload dict in place: after the call the payload no longer
contains that key, while the lookup of every other key is unchanged. -/
theorem notify_mutates_payload (payload : Payload) (outcomes : Nat → PostOutcome)
    (v : Val) (hv : List.lookup "evaluation_url" payload = some v)
    (ht : v.truthy = true) :
    List.lookup "evaluation_url" (notify_evaluation payload outcomes).2 = none ∧
    ∀ k, k ≠ "evaluation_url" →
      List.lookup k (notify_evaluation payload outcomes).2 =
        List.lookup k payload := by
  constructor
  · simp only [notify_evaluation, hv, ht, if_pos]
    exact lookup_filterKey_self "evaluation_url" payload
  · intro k hk
    simp only [notify_evaluation, hv, ht, if_pos]
    exact lookup_filterKey_ne "evaluation_url" k hk payload

/-- C9 (witness): evaluates the frame condition on a concrete two-field
payload. -/
theorem notify_mutates_payload_witness :
    List.lookup "evaluation_url"
      (notify_evaluation [("evaluation_url", Val.vstr "u"), ("email", Val.vstr "e")]
        (fun _ => PostOutcome.exn)).2 = none ∧
    List.lookup "email"
      (notify_evaluation [("evaluation_url", Val.vstr "u"), ("email", Val.vstr "e")]
        (fun _ => PostOutcome.exn)).2 =
      List.lookup "email" [("evaluation_url", Val.vstr "u"), ("email", Val.vstr "e")] :=
  ⟨(notify_mutates_payload _ (fun _ => PostOutcome.exn) (Val.vstr "u") (by decide)
      (by decide)).1,
   (notify_mutates_payload _ (fun _ => PostOutcome.exn) (Val.vstr "u") (by decide)
      (by decide)).2 "email" (by decide)⟩

/-- C7 (amended): an attachment with a missing (or empty) name or url is
skipped without an error; an attachment with both present whose url splits
at a comma and whose base64 payload decodes is written under its declared
name. An attachment with both present whose url has no comma (or whose
payload does not decode) instead raises — see the counterexample. -/
theorem attachment_processing (d : WorkDir) (a : Attachment) :
    (truthyStr a.name = none ∨ truthyStr a.url = none →
       processAttachment d a = Except.ok d) ∧
    (∀ name url header payload data,
       a = ⟨some name, some url⟩ → name ≠ "" →
       splitFirstComma url = some (header, payload) →
       b64decode payload = some data →
       processAttachment d a =
         Except.ok (writeFile d name (FileContent.bin data))) := by
  constructor
  · intro h
    rcases h with h | h <;>
      · cases hn : truthyStr a.name <;> cases hu : truthyStr a.url <;>
          simp_all [processAttachment]
  · intro name url header payload data ha hname hsplit hdecode
    subst ha
    have hurl : url ≠ "" := by
      intro he
      rw [he] at hsplit
      simp [splitFirstComma, splitCommaChars] at hsplit
    simp [processAttachment, truthyStr, hname, hurl, hsplit, hdecode]

/-- C7 (counterexample): an attachment with both name and url present but
no comma in the url raises (the two-name unpacking of `split(",", 1)`
fails) instead of being written or skipped, refuting the claim that every
attachment with both fields present gets its decoded content written. -/
theorem attachment_comma_free_raises :
    processAttachment [] ⟨some "a.txt", some "plainstring"⟩ = Except.error () := rfl

/-- C7 (witness): evaluates the amended theorem on a skipped attachment
(missing name) and on a well-formed data URI `data:;base64,QUJD`, whose
payload decodes to the bytes of `ABC`. -/
theorem attachment_processing_witness :
    processAttachment [] ⟨none, some "x"⟩ = Except.ok [] ∧
    processAttachment [] ⟨some "f.bin", some "data:;base64,QUJD"⟩ =
      Except.ok (writeFile [] "f.bin" (FileContent.bin [65, 66, 67])) :=
  ⟨(attachment_processing [] ⟨none, some "x"⟩).1 (Or.inl rfl),
   (attachment_processing [] ⟨some "f.bin", some "data:;base64,QUJD"⟩).2
      "f.bin" "data:;base64,QUJD" "data:;base64" "QUJD" [65, 66, 67]
      rfl (by decide) (by decide) (by decide)⟩

/-- C8: for every round greater than 1 the generation instruction is the
base instruction extended with the previous `index.html` read back from the
Working Directory as revision context, while for round 1 it is built from
the brief alone. -/
theorem generation_prompt_by_round (brief : String) (d : WorkDir)
    (round_num : Int) (s : String) :
    (1 < round_num → readFile d "index.html" = some (FileContent.txt s) →
       buildPrompt brief d round_num =
         Except.ok (basePrompt brief ++ revisionBlock s)) ∧
    buildPrompt brief d 1 = Except.ok (basePrompt brief) := by
  constructor
  · intro h hr
    simp [buildPrompt, h, hr]
  · rfl

/-- C8 (witness): evaluates the revision case on a concrete round-2
directory holding a previous document. -/
theorem generation_prompt_by_round_witness :
    buildPrompt "b" [("index.html", FileContent.txt "<p>old</p>")] 2 =
      Except.ok (basePrompt "b" ++ revisionBlock "<p>old</p>") :=
  (generation_prompt_by_round "b" [("index.html", FileContent.txt "<p>old</p>")]
    2 "<p>old</p>").1 (by decide) (by decide)

/-- C10: an attachment whose name and url are both present but whose url
contains no comma makes the attachment loop raise, and `generate_app` on a
request carrying it fails before any document is generated — even though
the generation response itself is well-formed. -/
theorem comma_free_attachment_aborts_generation :
    processAttachments [] [⟨some "img.png", some "nocommadata"⟩] = Except.error () ∧
    generate_app [] "brief" [⟨some "img.png", some "nocommadata"⟩] 1
      (GenContent.objFields [("html", "<html></html>")]) = Except.error () :=
  ⟨rfl, rfl⟩

end DeployAgent
